import Mathlib

/-!
Shallow embedding of the WMS order-reconciliation core (`src/server.js`).

Rows parsed from CSV are finite maps from column names to cell values; the
CSV parser runs with `dynamicTyping`, so a cell is either a string or a
number (integer cells only are relevant here).  JavaScript `parseInt` can
fail, which we model with `Option Int` (`none` = `NaN`); `NaN` propagates
through subtraction and `Math.max`, and every `NaN` comparison is false.
JavaScript `Map`s preserve insertion order and `Map.set` keeps the original
position of an existing key, which we model with association lists.
-/

/-- A CSV cell after `dynamicTyping`: a string or an integer number. -/
inductive CellValue where
  | str (s : String)
  | num (n : Int)
deriving DecidableEq

/-- A parsed CSV row: column name to cell value, in column order. -/
abbrev Row := List (String × CellValue)

/-- JavaScript `Map.get` / object property lookup on an association list. -/
def mapGet {α : Type} (m : List (String × α)) (k : String) : Option α :=
  match m with
  | [] => none
  | (k0, v0) :: rest => if k0 = k then some v0 else mapGet rest k

/-- JavaScript `Map.set`: replace in place if the key exists, else append. -/
def mapSet {α : Type} (m : List (String × α)) (k : String) (v : α) :
    List (String × α) :=
  match m with
  | [] => [(k, v)]
  | (k0, v0) :: rest => if k0 = k then (k0, v) :: rest else (k0, v0) :: mapSet rest k v

/-- The keys of an association list, in order. -/
def mapKeys {α : Type} (m : List (String × α)) : List String :=
  m.map Prod.fst

/-- ASCII whitespace recognised by `String.prototype.trim` (the subset
relevant to CSV cells). -/
def isWSChar (c : Char) : Bool :=
  c = ' ' || c = '\t' || c = '\n' || c = '\r'

/-- JavaScript `String.prototype.trim`. -/
def jsTrim (s : String) : String :=
  String.mk (((s.data.dropWhile isWSChar).reverse.dropWhile isWSChar).reverse)

/-- JavaScript `String.prototype.toLowerCase` (ASCII range; all status
keywords in the source are ASCII). -/
def jsToLower (s : String) : String :=
  String.mk (s.data.map Char.toLower)

/-- `cs` is a leading segment of `l` (character lists). -/
def leadsChars : List Char → List Char → Bool
  | [], _ => true
  | _ :: _, [] => false
  | c :: cs, d :: ds => c = d && leadsChars cs ds

/-- `sub` occurs contiguously inside `l` (character lists). -/
def insideChars (sub : List Char) : List Char → Bool
  | [] => sub.isEmpty
  | d :: ds => leadsChars sub (d :: ds) || insideChars sub ds

/-- JavaScript `String.prototype.includes`. -/
def jsIncludes (s sub : String) : Bool :=
  insideChars sub.data s.data

/-- JavaScript `toString` on a cell value. -/
def jsToString : CellValue → String
  | .str s => s
  | .num n => toString n

/-- JavaScript truthiness of a cell value (`""` and `0` are falsy). -/
def jsTruthyCell : CellValue → Bool
  | .str s => !(s = "")
  | .num n => !(n = 0)

/-- JavaScript truthiness of a possibly-absent value (`undefined`/`null`
are falsy). -/
def jsTruthy : Option CellValue → Bool
  | none => false
  | some v => jsTruthyCell v

/-- JavaScript `x || d` on a possibly-absent cell value. -/
def jsOr (v : Option CellValue) (d : CellValue) : CellValue :=
  match v with
  | none => d
  | some w => if jsTruthyCell w then w else d

/-- JavaScript `===` on cell values: values of different types are never
strictly equal. -/
def cellStrictEq : CellValue → CellValue → Bool
  | .str s, .str t => s = t
  | .num a, .num b => a = b
  | _, _ => false

def isDigitChar (c : Char) : Bool := '0' ≤ c && c ≤ '9'

/-- Accumulate the maximal leading run of decimal digits. -/
def parseDigitsAux : List Char → Nat → Nat
  | [], acc => acc
  | c :: cs, acc =>
    if isDigitChar c then parseDigitsAux cs (acc * 10 + (c.toNat - 48)) else acc

/-- Parse a non-empty leading run of decimal digits, `none` if the first
character is not a digit. -/
def parseDigitsLead : List Char → Option Nat
  | [] => none
  | c :: cs => if isDigitChar c then some (parseDigitsAux cs (c.toNat - 48)) else none

/-- JavaScript `parseInt` on a string (decimal form: optional leading
whitespace, optional sign, maximal digit run, trailing garbage ignored);
`none` models `NaN`. -/
def jsParseIntStr (s : String) : Option Int :=
  match s.data.dropWhile isWSChar with
  | '-' :: rest => (parseDigitsLead rest).map (fun n => -(n : Int))
  | '+' :: rest => (parseDigitsLead rest).map (fun n => (n : Int))
  | l => (parseDigitsLead l).map (fun n => (n : Int))

/-- JavaScript `parseInt` on a cell value: numbers round-trip through
their decimal string form, so integer cells parse to themselves. -/
def jsParseInt : CellValue → Option Int
  | .num n => some n
  | .str s => jsParseIntStr s

/-- `NaN`-propagating subtraction. -/
def jsSub : Option Int → Option Int → Option Int
  | some a, some b => some (a - b)
  | _, _ => none

/-- `Math.max(0, x)`; `Math.max(0, NaN)` is `NaN`. -/
def jsMax0 (x : Option Int) : Option Int :=
  x.map (fun n => max 0 n)

/-- `x > 0` on a possibly-`NaN` number: every `NaN` comparison is false. -/
def jsGtZero : Option Int → Bool
  | some n => 0 < n
  | none => false

/-- `findColumnValue` (`src/server.js:245`): first alias whose value is
defined, non-null, and not the empty string. -/
def findColumnValue (row : Row) : List String → Option CellValue
  | [] => none
  | n :: ns =>
    match mapGet row n with
    | some v => if v = CellValue.str "" then findColumnValue row ns else some v
    | none => findColumnValue row ns

/-- One combo component (`src/server.js:146`): component MSKU and units
per combo (always 1 when loaded). -/
structure ComboComponent where
  msku : String
  quantity : Int
deriving DecidableEq

/-- An inventory ledger entry (`src/server.js:208`).  Stock fields that
can be `NaN` (unparseable cells) are `Option Int` with `none` = `NaN`. -/
structure InventoryItem where
  msku : String
  productName : String
  panel : String
  status : String
  currentStock : Option Int
  originalStock : Option Int
  openingStock : Option Int
  bufferStock : Option Int
  warehouseStock : Int
  warehouseBreakdown : List (String × Int)
deriving DecidableEq

/-- The global `masterData` state (`src/server.js:19`). -/
structure MasterState where
  skuToMsku : List (String × String)
  comboSkus : List (String × List ComboComponent)
  currentInventory : List (String × InventoryItem)
  originalInventory : List (String × InventoryItem)
deriving DecidableEq

def emptyMasterState : MasterState :=
  { skuToMsku := [], comboSkus := [], currentInventory := [], originalInventory := [] }

/-- One row of `loadMasterData` (`src/server.js:101`): store
`trim(sku) → trim(msku)` when both resolve, are truthy, and are not
strictly equal (compared before trimming). -/
def processMasterRow (tbl : List (String × String)) (row : Row) :
    List (String × String) :=
  let sku := findColumnValue row ["sku", "SKU", "Sku"]
  let msku := findColumnValue row ["msku", "MSKU", "Msku"]
  match sku, msku with
  | some s, some m =>
    if jsTruthyCell s && jsTruthyCell m && !(cellStrictEq s m) then
      mapSet tbl (jsTrim (jsToString s)) (jsTrim (jsToString m))
    else tbl
  | _, _ => tbl

/-- `loadMasterData` (`src/server.js:97`): fold the mapping rows into the
SKU → MSKU table (the table is not cleared first). -/
def loadMasterData (rows : List Row) (st : MasterState) : MasterState :=
  { st with skuToMsku := rows.foldl processMasterRow st.skuToMsku }

/-- The fixed warehouse-location columns (`src/server.js:188`). -/
def warehouseColumns : List String :=
  ["TLCQ", "BLR7", "BLR8", "BOM5", "BOM7", "CCU1", "CCX1", "DEL4", "DEL5",
   "DEX3", "PNQ2", "PNQ3", "SDED", "SDEE", "XHJ9"]

/-- The per-location scan of one inventory row (`src/server.js:192`):
sum of the positive parsed stocks and the breakdown of those locations. -/
def warehouseScan (row : Row) : Int × List (String × Int) :=
  warehouseColumns.foldl
    (fun acc col =>
      match jsParseInt (jsOr (findColumnValue row [col]) (CellValue.num 0)) with
      | some s => if 0 < s then (acc.1 + s, acc.2 ++ [(col, s)]) else acc
      | none => acc)
    (0, [])

def openingStockAliases : List String := ["Opening Stock", "opening_stock", "Opening"]

def bufferStockAliases : List String := ["Buffer Stock", "buffer_stock", "Buffer"]

/-- Build the `inventoryData` object of one inventory row
(`src/server.js:181`), returning `none` when the row is skipped
(msku falsy or blank after trimming). -/
def mkInventoryItem (row : Row) : Option InventoryItem :=
  let msku := findColumnValue row ["msku", "MSKU", "Msku"]
  let productName := findColumnValue row ["Product Name", "product_name", "Product"]
  let openingStock := jsParseInt (jsOr (findColumnValue row openingStockAliases) (CellValue.num 0))
  let bufferStock := jsParseInt (jsOr (findColumnValue row bufferStockAliases) (CellValue.num 0))
  let ws := warehouseScan row
  let totalStock :=
    if openingStock = some 0 && decide (0 < ws.1) then some ws.1 else openingStock
  match msku with
  | some mv =>
    if jsTruthyCell mv && !(jsTrim (jsToString mv) = "") then
      some
        { msku := jsTrim (jsToString mv)
          productName :=
            match productName with
            | some pv => if jsTruthyCell pv then jsTrim (jsToString pv) else "Unknown Product"
            | none => "Unknown Product"
          panel :=
            if ws.2.isEmpty then "Unknown"
            else "Warehouses: " ++ String.intercalate ", " (ws.2.map Prod.fst)
          status := if jsGtZero totalStock then "In Stock" else "Out of Stock"
          currentStock := totalStock
          originalStock := totalStock
          openingStock := openingStock
          bufferStock := bufferStock
          warehouseStock := ws.1
          warehouseBreakdown := ws.2 }
    else none
  | none => none

/-- One row of `loadCurrentInventory` (`src/server.js:181`): store the
item in the working ledger and a copy of it in the snapshot. -/
def processInventoryRow (st : MasterState) (row : Row) : MasterState :=
  match mkInventoryItem row with
  | some item =>
    { st with
        currentInventory := mapSet st.currentInventory item.msku item
        originalInventory := mapSet st.originalInventory item.msku item }
  | none => st

/-- `loadCurrentInventory` (`src/server.js:176`). -/
def loadCurrentInventory (rows : List Row) (st : MasterState) : MasterState :=
  rows.foldl processInventoryRow st

/-- `detectMarketplace` (`src/server.js:255`): inspect the lower-cased
column names of the first row; first match wins. -/
def detectMarketplace (orderData : List Row) : String :=
  match orderData with
  | [] => "unknown"
  | firstRow :: _ =>
    let columns := firstRow.map (fun p => jsToLower p.1)
    if columns.any (fun c => jsIncludes c "msku") then "meesho"
    else if columns.any (fun c => jsIncludes c "asin" || jsIncludes c "amazon") then "amazon"
    else if columns.any (fun c => jsIncludes c "flipkart" || jsIncludes c "fsn") then "flipkart"
    else if columns.any (fun c => jsIncludes c "sku") then "generic"
    else "unknown"

/-- `mapSkuToMsku` (`src/server.js:279`): clean the SKU; for `meesho`
return it unchanged, otherwise consult the mapping table with identity
fallback. -/
def mapSkuToMsku (tbl : List (String × String)) (sku : Option CellValue)
    (marketplace : String) : String :=
  let cleanSku := match sku with
    | some v => if jsTruthyCell v then jsTrim (jsToString v) else ""
    | none => ""
  if marketplace = "meesho" then cleanSku
  else
    match mapGet tbl cleanSku with
    | some m => m
    | none => cleanSku

/-- `expandComboSku` (`src/server.js:295`): combo lookup first by the
normalized MSKU, then by the original raw SKU value (which only hits when
the raw value is a string, since combo keys are strings); otherwise a
single synthetic component of quantity 1. -/
def expandComboSku (tbl : List (String × String))
    (comboTbl : List (String × List ComboComponent)) (sku : Option CellValue)
    (marketplace : String) : List ComboComponent :=
  let mappedMsku := mapSkuToMsku tbl sku marketplace
  match mapGet comboTbl mappedMsku with
  | some comps => comps
  | none =>
    match sku with
    | some (CellValue.str s) =>
      match mapGet comboTbl s with
      | some comps => comps
      | none => [{ msku := mappedMsku, quantity := 1 }]
    | _ => [{ msku := mappedMsku, quantity := 1 }]

/-- The fields `extractOrderInfo` pulls out of one order row. -/
structure OrderInfo where
  sku : Option CellValue
  quantity : Option Int
  status : Option CellValue
  orderDate : Option CellValue
  customerLocation : Option CellValue
  productName : Option CellValue
deriving DecidableEq

/-- The quantity alias list used by `extractOrderInfo` for each
marketplace tag (`src/server.js:319,328,337,348`). -/
def quantityAliases (marketplace : String) : List String :=
  if marketplace = "amazon" then ["Quantity", "quantity", "Qty", "qty"]
  else if marketplace = "flipkart" then ["Quantity", "quantity", "Qty", "qty"]
  else if marketplace = "meesho" then ["Quantity", "quantity", "Qty", "qty"]
  else ["Quantity", "quantity", "Qty", "qty", "Count", "Amount"]

/-- `extractOrderInfo` (`src/server.js:313`): marketplace-specific alias
lists; the quantity cell is run through `parseInt(value || 1)`. -/
def extractOrderInfo (order : Row) (marketplace : String) : OrderInfo :=
  if marketplace = "amazon" then
    { sku := findColumnValue order ["SKU", "sku", "ASIN", "asin"]
      quantity := jsParseInt (jsOr (findColumnValue order ["Quantity", "quantity", "Qty", "qty"]) (CellValue.num 1))
      status := findColumnValue order ["Order Status", "order-status", "Status", "status"]
      orderDate := findColumnValue order ["Order Date", "order-date", "Purchase Date", "Date"]
      customerLocation := findColumnValue order ["Ship City", "ship-city", "Customer State", "Location"]
      productName := findColumnValue order ["Product Name", "product-name", "Title", "Item"] }
  else if marketplace = "flipkart" then
    { sku := findColumnValue order ["SKU", "sku", "FSN", "fsn"]
      quantity := jsParseInt (jsOr (findColumnValue order ["Quantity", "quantity", "Qty", "qty"]) (CellValue.num 1))
      status := findColumnValue order ["Order Status", "order-status", "Status", "status"]
      orderDate := findColumnValue order ["Order Date", "order-date", "Date"]
      customerLocation := findColumnValue order ["Customer State", "customer-state", "Location"]
      productName := findColumnValue order ["Product Name", "product-name", "Item"] }
  else if marketplace = "meesho" then
    { sku := findColumnValue order ["MSKU", "msku", "SKU", "sku"]
      quantity := jsParseInt (jsOr (findColumnValue order ["Quantity", "quantity", "Qty", "qty"]) (CellValue.num 1))
      status := findColumnValue order ["Status", "status", "Order Status"]
      orderDate := findColumnValue order ["Order Date", "order-date", "Date"]
      customerLocation := findColumnValue order ["Customer Location", "customer-location", "Location"]
      productName := findColumnValue order ["Product Name", "product-name", "Item"] }
  else
    { sku := findColumnValue order ["SKU", "sku", "MSKU", "msku", "Product Code", "Item Code"]
      quantity := jsParseInt (jsOr (findColumnValue order ["Quantity", "quantity", "Qty", "qty", "Count", "Amount"]) (CellValue.num 1))
      status := findColumnValue order ["Status", "status", "Order Status", "Reason for Credit Entry", "State"]
      orderDate := findColumnValue order ["Order Date", "order-date", "Date", "Created Date"]
      customerLocation := findColumnValue order ["Customer State", "Customer Location", "Location", "State", "City"]
      productName := findColumnValue order ["Product Name", "product-name", "Title", "Item Name", "Description"] }

/-- The positive status keyword set (`src/server.js:365`). -/
def validStatuses : List String :=
  ["delivered", "shipped", "ready_to_ship", "dispatched",
   "completed", "fulfilled", "out_for_delivery", "success",
   "confirmed", "processing", "packed", "in_transit"]

/-- The negative status keyword set (`src/server.js:372`). -/
def invalidStatuses : List String :=
  ["cancelled", "returned", "refunded", "rejected", "failed"]

/-- `shouldProcessOrder` (`src/server.js:359`): falsy status rejects;
otherwise the lower-cased status must contain a positive keyword and no
negative keyword. -/
def shouldProcessOrder (status : Option CellValue) (marketplace : String) : Bool :=
  match status with
  | none => false
  | some v =>
    if !(jsTruthyCell v) then false
    else
      let statusLower := jsToLower (jsToString v)
      validStatuses.any (fun s => jsIncludes statusLower s) &&
        !(invalidStatuses.any (fun s => jsIncludes statusLower s))

/-- One processed order line (`src/server.js:412`). -/
structure ProcessedOrderLine where
  marketplace : String
  originalSku : Option CellValue
  mappedMsku : String
  quantity : Int
  status : Option CellValue
  orderDate : Option CellValue
  customerLocation : Option CellValue
  productName : Option CellValue
  isComboComponent : Bool
deriving DecidableEq

/-- The output of `processOrderData` (`src/server.js:435`). -/
structure ProcessResult where
  processedOrders : List ProcessedOrderLine
  msquQuantityMap : List (String × Int)
  unmappedSkus : List CellValue
deriving DecidableEq

/-- JavaScript `Set.add` (SameValueZero membership, insertion order). -/
def setAdd (s : List CellValue) (v : CellValue) : List CellValue :=
  if s.any (fun w => cellStrictEq w v) then s else s ++ [v]

/-- The body of the `expandedItems.forEach` in `processOrderData`
(`src/server.js:403`). -/
def processExpandedItem (marketplace : String) (skuV : CellValue) (q : Int)
    (status orderDate customerLocation productName : Option CellValue)
    (comboSize : Nat) (acc : ProcessResult) (item : ComboComponent) : ProcessResult :=
  let msku := item.msku
  let itemQuantity := item.quantity * q
  if !(msku = "") then
    { acc with
        msquQuantityMap :=
          mapSet acc.msquQuantityMap msku
            ((mapGet acc.msquQuantityMap msku).getD 0 + itemQuantity)
        processedOrders :=
          acc.processedOrders ++
            [{ marketplace := marketplace
               originalSku := some skuV
               mappedMsku := msku
               quantity := itemQuantity
               status := status
               orderDate := orderDate
               customerLocation := customerLocation
               productName := productName
               isComboComponent := decide (1 < comboSize) }] }
  else
    { acc with unmappedSkus := setAdd acc.unmappedSkus skuV }

/-- One iteration of the order loop in `processOrderData`
(`src/server.js:390`). -/
def processOrderRow (tbl : List (String × String))
    (comboTbl : List (String × List ComboComponent)) (marketplace : String)
    (acc : ProcessResult) (order : Row) : ProcessResult :=
  let info := extractOrderInfo order marketplace
  if shouldProcessOrder info.status marketplace then
    match info.sku, info.quantity with
    | some skuV, some q =>
      if jsTruthyCell skuV && decide (0 < q) then
        let expandedItems := expandComboSku tbl comboTbl (some skuV) marketplace
        expandedItems.foldl
          (processExpandedItem marketplace skuV q info.status info.orderDate
            info.customerLocation info.productName expandedItems.length)
          acc
      else acc
    | _, _ => acc
  else acc

/-- `processOrderData` (`src/server.js:383`).  It reads only the mapping
and combo tables of the master state. -/
def processOrderData (tbl : List (String × String))
    (comboTbl : List (String × List ComboComponent)) (orderData : List Row)
    (marketplace : String) : ProcessResult :=
  orderData.foldl (processOrderRow tbl comboTbl marketplace)
    { processedOrders := [], msquQuantityMap := [], unmappedSkus := [] }

/-- One inventory update record (`src/server.js:457,469`).  The
`notInInventory` flag is absent (hence falsy) on found items. -/
structure InventoryUpdate where
  msku : String
  originalStock : Option Int
  soldQuantity : Int
  newStock : Option Int
  stockReduced : Option Int
  panel : String
  status : String
  isOutOfStock : Bool
  notInInventory : Bool
deriving DecidableEq

/-- The body of the `msquQuantityMap.forEach` in `updateInventoryWithSales`
(`src/server.js:446`): clamp at zero on found items, emit a zero-stock
record on missing ones. -/
def applySale (acc : List InventoryUpdate × List (String × InventoryItem))
    (entry : String × Int) :
    List InventoryUpdate × List (String × InventoryItem) :=
  let msku := entry.1
  let soldQuantity := entry.2
  match mapGet acc.2 msku with
  | some item =>
    let newStock := jsMax0 (jsSub item.currentStock (some soldQuantity))
    let stockDifference := jsSub item.currentStock newStock
    let item2 := { item with currentStock := newStock }
    (acc.1 ++
      [{ msku := msku
         originalStock := item.originalStock
         soldQuantity := soldQuantity
         newStock := newStock
         stockReduced := stockDifference
         panel := item.panel
         status := item.status
         isOutOfStock := decide (newStock = some 0)
         notInInventory := false }],
     mapSet acc.2 msku item2)
  | none =>
    (acc.1 ++
      [{ msku := msku
         originalStock := some 0
         soldQuantity := soldQuantity
         newStock := some 0
         stockReduced := some 0
         panel := "Not Found"
         status := "Unknown"
         isOutOfStock := true
         notInInventory := true }],
     acc.2)

/-- The fold of `updateInventoryWithSales` before the final sort. -/
def updateInventoryRaw (m : List (String × Int))
    (inv : List (String × InventoryItem)) :
    List InventoryUpdate × List (String × InventoryItem) :=
  m.foldl applySale ([], inv)

/-- Comparator order of `inventoryUpdates.sort((a, b) => b.soldQuantity -
a.soldQuantity)` (`src/server.js:483`): descending by sold quantity. -/
def updGE (a b : InventoryUpdate) : Prop :=
  b.soldQuantity ≤ a.soldQuantity

instance : DecidableRel updGE :=
  fun a b => inferInstanceAs (Decidable (b.soldQuantity ≤ a.soldQuantity))

instance : IsTotal InventoryUpdate updGE :=
  ⟨fun a b => le_total b.soldQuantity a.soldQuantity⟩

instance : IsTrans InventoryUpdate updGE :=
  ⟨fun _ _ _ h1 h2 => le_trans h2 h1⟩

/-- The ECMAScript-2019 `Array.prototype.sort` with the comparator above:
a stable descending sort, which insertion sort implements exactly. -/
def sortBySoldDesc (l : List InventoryUpdate) : List InventoryUpdate :=
  l.insertionSort updGE

/-- `updateInventoryWithSales` (`src/server.js:443`): returns the sorted
update list; the mutated ledger is the second component. -/
def updateInventoryWithSales (m : List (String × Int))
    (inv : List (String × InventoryItem)) :
    List InventoryUpdate × List (String × InventoryItem) :=
  let r := updateInventoryRaw m inv
  (sortBySoldDesc r.1, r.2)

/-- `resetInventory` (`src/server.js:487`): copy every snapshot entry
back over the working ledger. -/
def resetInventory (st : MasterState) : MasterState :=
  { st with
      currentInventory :=
        st.originalInventory.foldl (fun cur p => mapSet cur p.1 p.2)
          st.currentInventory }

/-- One reconciliation pass at the state level: the ledger mutation
performed by `updateInventoryWithSales` inside a request. -/
def reconcile (m : List (String × Int)) (st : MasterState) : MasterState :=
  { st with currentInventory := (updateInventoryWithSales m st.currentInventory).2 }

/-- A sequence of reconciliation passes. -/
def applySales (sales : List (List (String × Int))) (st : MasterState) : MasterState :=
  sales.foldl (fun st m => reconcile m st) st

/-- The combined per-MSKU quantity accumulation of the `/process-orders`
handler (`src/server.js:538`). -/
def combineMaps (acc : List (String × Int)) (m : List (String × Int)) :
    List (String × Int) :=
  m.foldl (fun acc p => mapSet acc p.1 ((mapGet acc p.1).getD 0 + p.2)) acc

/-- The `/process-orders` handler core (`src/server.js:497`): optionally
load an uploaded master file, reject when no mapping data exists, reset
the ledger from the snapshot, process each order file under its detected
marketplace, combine the per-file quantity maps, and reconcile once. -/
def processOrdersRequest (st : MasterState) (masterRows : Option (List Row))
    (orderFiles : List (List Row)) :
    Except String (List InventoryUpdate × MasterState) :=
  match masterRows with
  | some rows => processOrdersAfterLoad (loadMasterData rows st) orderFiles
  | none =>
    if st.skuToMsku = [] then Except.error "No master data available"
    else processOrdersAfterLoad st orderFiles
where
  processOrdersAfterLoad (st : MasterState) (orderFiles : List (List Row)) :
      Except String (List InventoryUpdate × MasterState) :=
    let st1 := resetInventory st
    let perFile := orderFiles.map
      (fun rows => processOrderData st1.skuToMsku st1.comboSkus rows (detectMarketplace rows))
    let combined := perFile.foldl (fun acc r => combineMaps acc r.msquQuantityMap) []
    let r := updateInventoryWithSales combined st1.currentInventory
    Except.ok (r.1, { st1 with currentInventory := r.2 })

/-- The working-ledger overwrite loop of `resetInventory`: fold the
snapshot entries into the target map. -/
def copyInto {α : Type} (cur : List (String × α)) (orig : List (String × α)) :
    List (String × α) :=
  orig.foldl (fun cur p => mapSet cur p.1 p.2) cur

/-- The item's `currentStock` is not a negative number (`NaN` counts as
not negative, since every `NaN` comparison is false). -/
def itemStockNonneg (it : InventoryItem) : Bool :=
  match it.currentStock with
  | some n => decide (0 ≤ n)
  | none => true

/-- No ledger entry has a negative `currentStock`. -/
def allStocksNonneg (inv : List (String × InventoryItem)) : Bool :=
  inv.all (fun p => itemStockNonneg p.2)

/-- The `InventoryUpdate` emitted for an MSKU with no ledger entry
(`src/server.js:469`). -/
def notFoundUpdate (k : String) (q : Int) : InventoryUpdate :=
  { msku := k, originalStock := some 0, soldQuantity := q, newStock := some 0,
    stockReduced := some 0, panel := "Not Found", status := "Unknown",
    isOutOfStock := true, notInInventory := true }

/-- A ledger item as built by a load whose row carries only an msku and an
integer opening stock `n` (used by the concrete scenarios below). -/
def plainItem (msku : String) (n : Int) : InventoryItem :=
  { msku := msku, productName := "Unknown Product", panel := "Unknown",
    status := if 0 < n then "In Stock" else "Out of Stock",
    currentStock := some n, originalStock := some n, openingStock := some n,
    bufferStock := some 0, warehouseStock := 0, warehouseBreakdown := [] }

/-- Scenario state: mapping `A1 → M1`, combo `C1 → [M1 x1, M2 x1]`,
ledger `M1 = 10`, `M2 = 5`. -/
def comboScenarioState : MasterState :=
  loadCurrentInventory
    [[("msku", CellValue.str "M1"), ("Opening Stock", CellValue.num 10)],
     [("msku", CellValue.str "M2"), ("Opening Stock", CellValue.num 5)]]
    { emptyMasterState with
        skuToMsku := [("A1", "M1")]
        comboSkus := [("C1", [{ msku := "M1", quantity := 1 },
                              { msku := "M2", quantity := 1 }])] }

/-- Scenario order row: `{sku: "C1", quantity: 2, status: "Delivered"}`. -/
def comboScenarioOrder : Row :=
  [("SKU", CellValue.str "C1"), ("Quantity", CellValue.num 2),
   ("Order Status", CellValue.str "Delivered")]

/-- Batch result of the combo scenario. -/
def comboScenarioResult : ProcessResult :=
  processOrderData comboScenarioState.skuToMsku comboScenarioState.comboSkus
    [comboScenarioOrder] "amazon"

/-- Reconciliation result of the combo scenario. -/
def comboScenarioUpdates : List InventoryUpdate × List (String × InventoryItem) :=
  updateInventoryWithSales comboScenarioResult.msquQuantityMap
    comboScenarioState.currentInventory

/-- A ledger state holding one item with negative stock, reachable by
loading a row whose opening stock is -1. -/
def negLedgerState : MasterState :=
  loadCurrentInventory
    [[("msku", CellValue.str "M"), ("Opening Stock", CellValue.num (-1))]]
    emptyMasterState

/-- A simple ledger item for the request-level witness states. -/
def reqItem (n : Int) : InventoryItem :=
  { msku := "M", productName := "P", panel := "Unknown", status := "In Stock",
    currentStock := some n, originalStock := some n, openingStock := some n,
    bufferStock := some 0, warehouseStock := 0, warehouseBreakdown := [] }

/-- Witness pre-state A: working ledger at 5, snapshot at 7. -/
def reqStateA : MasterState :=
  { skuToMsku := [("A", "B")], comboSkus := [],
    currentInventory := [("M", reqItem 5)],
    originalInventory := [("M", reqItem 7)] }

/-- Witness pre-state B: same snapshot and tables, working ledger at 9. -/
def reqStateB : MasterState :=
  { skuToMsku := [("A", "B")], comboSkus := [],
    currentInventory := [("M", reqItem 9)],
    originalInventory := [("M", reqItem 7)] }

/-- The common result both witness pre-states reach on an empty request. -/
def reqResult : List InventoryUpdate × MasterState :=
  ([], { skuToMsku := [("A", "B")], comboSkus := [],
         currentInventory := [("M", reqItem 7)],
         originalInventory := [("M", reqItem 7)] })

/-! ### Association-list lemmas -/

theorem mapGet_mapSet_self {α : Type} (m : List (String × α)) (k : String) (v : α) :
    mapGet (mapSet m k v) k = some v := by
  induction m with
  | nil => simp [mapGet, mapSet]
  | cons p rest ih =>
    obtain ⟨k0, v0⟩ := p
    by_cases h : k0 = k <;> simp [mapGet, mapSet, h, ih]

theorem mapGet_mapSet_ne {α : Type} (m : List (String × α)) (k k2 : String) (v : α)
    (h : k ≠ k2) : mapGet (mapSet m k v) k2 = mapGet m k2 := by
  induction m with
  | nil => simp [mapGet, mapSet, h]
  | cons p rest ih =>
    obtain ⟨k0, v0⟩ := p
    by_cases h0 : k0 = k
    · subst h0
      simp [mapGet, mapSet, h]
    · simp [mapGet, mapSet, h0, ih]

theorem mem_keys_of_mapGet_some {α : Type} {m : List (String × α)} {k : String} {v : α}
    (h : mapGet m k = some v) : k ∈ mapKeys m := by
  induction m with
  | nil => simp [mapGet] at h
  | cons p rest ih =>
    obtain ⟨k0, v0⟩ := p
    by_cases h0 : k0 = k
    · subst h0; simp [mapKeys]
    · simp [mapGet, h0] at h
      simpa [mapKeys] using Or.inr (by simpa [mapKeys] using ih h)

theorem mapKeys_nil {α : Type} : mapKeys ([] : List (String × α)) = [] := rfl

theorem mapKeys_cons {α : Type} (p : String × α) (m : List (String × α)) :
    mapKeys (p :: m) = p.1 :: mapKeys m := rfl

theorem mapGet_eq_none_of_not_mem {α : Type} {m : List (String × α)} {k : String}
    (h : k ∉ mapKeys m) : mapGet m k = none := by
  induction m with
  | nil => rfl
  | cons p rest ih =>
    obtain ⟨k0, v0⟩ := p
    rw [mapKeys_cons, List.mem_cons] at h
    push_neg at h
    simp only [mapGet]
    rw [if_neg (fun hh : k0 = k => h.1 hh.symm)]
    exact ih h.2

theorem mapKeys_mapSet_of_mem {α : Type} {m : List (String × α)} {k : String} (v : α)
    (h : k ∈ mapKeys m) : mapKeys (mapSet m k v) = mapKeys m := by
  induction m with
  | nil => simp [mapKeys] at h
  | cons p rest ih =>
    obtain ⟨k0, v0⟩ := p
    by_cases h0 : k0 = k
    · simp only [mapSet, if_pos h0, mapKeys_cons]
    · rw [mapKeys_cons, List.mem_cons] at h
      rcases h with h | h
      · exact absurd h.symm h0
      · simp only [mapSet, if_neg h0, mapKeys_cons, ih h]

theorem mapKeys_mapSet_of_not_mem {α : Type} {m : List (String × α)} {k : String} (v : α)
    (h : k ∉ mapKeys m) : mapKeys (mapSet m k v) = mapKeys m ++ [k] := by
  induction m with
  | nil => simp [mapSet, mapKeys]
  | cons p rest ih =>
    obtain ⟨k0, v0⟩ := p
    rw [mapKeys_cons, List.mem_cons] at h
    push_neg at h
    simp only [mapSet, if_neg (fun hh : k0 = k => h.1 hh.symm), mapKeys_cons, ih h.2,
      List.cons_append]

theorem mapKeys_mapSet_nodup {α : Type} {m : List (String × α)} (k : String) (v : α)
    (h : (mapKeys m).Nodup) : (mapKeys (mapSet m k v)).Nodup := by
  by_cases hk : k ∈ mapKeys m
  · rw [mapKeys_mapSet_of_mem v hk]; exact h
  · rw [mapKeys_mapSet_of_not_mem v hk]
    refine List.Nodup.append h (List.nodup_singleton k) ?_
    intro a ha hb
    rcases List.mem_singleton.mp hb with rfl
    exact hk ha

theorem mapSet_eq_self {α : Type} {m : List (String × α)} {k : String} {v : α}
    (h : mapGet m k = some v) : mapSet m k v = m := by
  induction m with
  | nil => simp [mapGet] at h
  | cons p rest ih =>
    obtain ⟨k0, v0⟩ := p
    by_cases h0 : k0 = k
    · subst h0
      have hv : v0 = v := by simpa [mapGet] using h
      subst hv
      simp [mapSet]
    · simp only [mapGet, if_neg h0] at h
      simp [mapSet, h0, ih h]

/-! ### Reset (`copyInto`) lemmas -/

theorem copyInto_cons {α : Type} (cur : List (String × α)) (p : String × α)
    (orig : List (String × α)) :
    copyInto cur (p :: orig) = copyInto (mapSet cur p.1 p.2) orig := rfl

theorem copyInto_lookup_of_not_mem {α : Type} {orig : List (String × α)}
    (cur : List (String × α)) {k : String} (h : k ∉ mapKeys orig) :
    mapGet (copyInto cur orig) k = mapGet cur k := by
  induction orig generalizing cur with
  | nil => rfl
  | cons p rest ih =>
    rw [mapKeys_cons, List.mem_cons] at h
    push_neg at h
    rw [copyInto_cons, ih _ h.2, mapGet_mapSet_ne _ _ _ _ (fun hh => h.1 hh.symm)]

theorem copyInto_lookup_of_mem {α : Type} {orig : List (String × α)}
    (cur : List (String × α)) {k : String} (hnd : (mapKeys orig).Nodup)
    (h : k ∈ mapKeys orig) :
    mapGet (copyInto cur orig) k = mapGet orig k := by
  induction orig generalizing cur with
  | nil => simp [mapKeys] at h
  | cons p rest ih =>
    obtain ⟨k0, v0⟩ := p
    rw [mapKeys_cons, List.nodup_cons] at hnd
    rw [mapKeys_cons, List.mem_cons] at h
    by_cases h0 : k = k0
    · subst h0
      rw [copyInto_cons, copyInto_lookup_of_not_mem _ hnd.1,
        mapGet_mapSet_self]
      simp [mapGet]
    · rcases h with h | h
      · exact absurd h h0
      · rw [copyInto_cons, ih _ hnd.2 h]
        simp only [mapGet]
        rw [if_neg (fun hh : k0 = k => h0 hh.symm)]

theorem copyInto_lookup_mem_pair {α : Type} {orig : List (String × α)}
    (cur : List (String × α)) {k : String} {v : α} (hnd : (mapKeys orig).Nodup)
    (h : (k, v) ∈ orig) :
    mapGet (copyInto cur orig) k = some v := by
  induction orig generalizing cur with
  | nil => simp at h
  | cons p rest ih =>
    obtain ⟨k0, v0⟩ := p
    rw [mapKeys_cons, List.nodup_cons] at hnd
    rcases List.mem_cons.mp h with h | h
    · cases h
      rw [copyInto_cons, copyInto_lookup_of_not_mem _ hnd.1, mapGet_mapSet_self]
    · rw [copyInto_cons]
      exact ih _ hnd.2 h

theorem copyInto_eq_self {α : Type} {orig cur : List (String × α)}
    (h : ∀ p ∈ orig, mapGet cur p.1 = some p.2) : copyInto cur orig = cur := by
  induction orig generalizing cur with
  | nil => rfl
  | cons p rest ih =>
    rw [copyInto_cons, mapSet_eq_self (h p (List.mem_cons_self p rest))]
    exact ih (fun q hq => h q (List.mem_cons_of_mem p hq))

theorem resetInventory_currentInventory (st : MasterState) :
    (resetInventory st).currentInventory
      = copyInto st.currentInventory st.originalInventory := rfl

/-! ### Load and reconcile invariants -/

theorem loadCurrentInventory_current_eq_original {rows : List Row} {st : MasterState}
    (h : st.currentInventory = st.originalInventory) :
    (loadCurrentInventory rows st).currentInventory
      = (loadCurrentInventory rows st).originalInventory := by
  induction rows generalizing st with
  | nil => exact h
  | cons row rest ih =>
    show (loadCurrentInventory rest (processInventoryRow st row)).currentInventory = _
    apply ih
    unfold processInventoryRow
    cases mkInventoryItem row with
    | none => exact h
    | some item => simp [h]

theorem loadCurrentInventory_original_nodup {rows : List Row} {st : MasterState}
    (h : (mapKeys st.originalInventory).Nodup) :
    (mapKeys (loadCurrentInventory rows st).originalInventory).Nodup := by
  induction rows generalizing st with
  | nil => exact h
  | cons row rest ih =>
    show (mapKeys (loadCurrentInventory rest (processInventoryRow st row)).originalInventory).Nodup
    apply ih
    unfold processInventoryRow
    cases mkInventoryItem row with
    | none => exact h
    | some item => exact mapKeys_mapSet_nodup _ _ h

theorem foldl_applySale_keys (m : List (String × Int))
    (acc : List InventoryUpdate × List (String × InventoryItem)) :
    mapKeys (m.foldl applySale acc).2 = mapKeys acc.2 := by
  induction m generalizing acc with
  | nil => rfl
  | cons e rest ih =>
    rw [List.foldl_cons, ih]
    show mapKeys (applySale acc e).2 = mapKeys acc.2
    cases he : mapGet acc.2 e.1 with
    | none => simp only [applySale, he]
    | some item =>
      simp only [applySale, he]
      exact mapKeys_mapSet_of_mem _ (mem_keys_of_mapGet_some he)

theorem updateInventoryWithSales_keys (m : List (String × Int))
    (inv : List (String × InventoryItem)) :
    mapKeys (updateInventoryWithSales m inv).2 = mapKeys inv :=
  foldl_applySale_keys m ([], inv)

theorem applySales_originalInventory (sales : List (List (String × Int)))
    (st : MasterState) :
    (applySales sales st).originalInventory = st.originalInventory := by
  induction sales generalizing st with
  | nil => rfl
  | cons m rest ih => exact ih (reconcile m st)

theorem applySales_keys (sales : List (List (String × Int))) (st : MasterState) :
    mapKeys (applySales sales st).currentInventory
      = mapKeys st.currentInventory := by
  induction sales generalizing st with
  | nil => rfl
  | cons m rest ih =>
    show mapKeys (applySales rest (reconcile m st)).currentInventory = _
    rw [ih]
    exact updateInventoryWithSales_keys m st.currentInventory

/-- C1: after a load, any sequence of reconciliation passes followed by a
reset restores every working-ledger entry (in particular its
`currentStock`) to its load-time value, and reset is idempotent: a second
reset with no intervening reconciliation leaves the working ledger
unchanged. -/
theorem wms_reset_round_trip (rows : List Row) (sales : List (List (String × Int))) :
    (∀ k, mapGet (resetInventory (applySales sales
            (loadCurrentInventory rows emptyMasterState))).currentInventory k
        = mapGet (loadCurrentInventory rows emptyMasterState).currentInventory k)
    ∧ (resetInventory (resetInventory (applySales sales
          (loadCurrentInventory rows emptyMasterState)))).currentInventory
        = (resetInventory (applySales sales
            (loadCurrentInventory rows emptyMasterState))).currentInventory := by
  have heq : (loadCurrentInventory rows emptyMasterState).currentInventory
      = (loadCurrentInventory rows emptyMasterState).originalInventory :=
    loadCurrentInventory_current_eq_original rfl
  have hnd : (mapKeys (loadCurrentInventory rows emptyMasterState).originalInventory).Nodup :=
    loadCurrentInventory_original_nodup (by simp [emptyMasterState, mapKeys])
  have horig : (applySales sales (loadCurrentInventory rows emptyMasterState)).originalInventory
      = (loadCurrentInventory rows emptyMasterState).originalInventory :=
    applySales_originalInventory sales _
  have hkeys : mapKeys (applySales sales (loadCurrentInventory rows emptyMasterState)).currentInventory
      = mapKeys (loadCurrentInventory rows emptyMasterState).currentInventory :=
    applySales_keys sales _
  constructor
  · intro k
    rw [resetInventory_currentInventory, horig]
    by_cases hk : k ∈ mapKeys (loadCurrentInventory rows emptyMasterState).originalInventory
    · rw [copyInto_lookup_of_mem _ hnd hk, heq]
    · rw [copyInto_lookup_of_not_mem _ hk]
      have h1 : mapGet (loadCurrentInventory rows emptyMasterState).currentInventory k = none :=
        mapGet_eq_none_of_not_mem (by rwa [congrArg mapKeys heq])
      have h2 : mapGet (applySales sales (loadCurrentInventory rows emptyMasterState)).currentInventory k = none :=
        mapGet_eq_none_of_not_mem (by rw [hkeys, congrArg mapKeys heq]; exact hk)
      rw [h1, h2]
  · rw [resetInventory_currentInventory, resetInventory_currentInventory]
    show copyInto (copyInto _ _) (applySales sales (loadCurrentInventory rows emptyMasterState)).originalInventory = _
    apply copyInto_eq_self
    intro p hp
    exact copyInto_lookup_mem_pair _ (horig ▸ hnd) hp

/-! ### Non-negativity under reconciliation -/

theorem allStocksNonneg_mapSet {inv : List (String × InventoryItem)} {k : String}
    {it : InventoryItem} (hinv : allStocksNonneg inv = true)
    (hit : itemStockNonneg it = true) :
    allStocksNonneg (mapSet inv k it) = true := by
  induction inv with
  | nil => simp [allStocksNonneg, mapSet, hit]
  | cons p rest ih =>
    obtain ⟨k0, v0⟩ := p
    simp only [allStocksNonneg, List.all_cons, Bool.and_eq_true] at hinv
    by_cases h0 : k0 = k
    · simp [allStocksNonneg, mapSet, h0, hit, hinv.2]
    · have := ih hinv.2
      simp [allStocksNonneg, mapSet, h0, hinv.1] at this ⊢
      exact this

theorem itemStockNonneg_clamped (it : InventoryItem) (q : Int) :
    itemStockNonneg { it with currentStock := jsMax0 (jsSub it.currentStock (some q)) } = true := by
  cases it.currentStock with
  | none => simp [itemStockNonneg, jsSub, jsMax0]
  | some n => simp [itemStockNonneg, jsSub, jsMax0, le_max_left]

theorem foldl_applySale_nonneg (m : List (String × Int))
    (acc : List InventoryUpdate × List (String × InventoryItem))
    (h : allStocksNonneg acc.2 = true) :
    allStocksNonneg (m.foldl applySale acc).2 = true := by
  induction m generalizing acc with
  | nil => exact h
  | cons e rest ih =>
    rw [List.foldl_cons]
    apply ih
    show allStocksNonneg (applySale acc e).2 = true
    cases he : mapGet acc.2 e.1 with
    | none => simpa only [applySale, he] using h
    | some item =>
      simp only [applySale, he]
      exact allStocksNonneg_mapSet h (itemStockNonneg_clamped item e.2)

/-- C2 (amended): if no ledger entry has negative `currentStock` before a
reconciliation pass, none has after it: every touched entry is clamped at
`max(0, currentStock - soldQuantity)` and every untouched entry keeps its
stock.  (The unamended claim fails for ledgers that already hold a
negative stock at an MSKU the sold-quantity map does not mention.) -/
theorem wms_reconcile_nonneg (m : List (String × Int))
    (inv : List (String × InventoryItem))
    (h : allStocksNonneg inv = true) :
    allStocksNonneg (updateInventoryWithSales m inv).2 = true :=
  foldl_applySale_nonneg m ([], inv) h

/-- Witness for C2: a concrete all-non-negative ledger stays all
non-negative after an oversold reconciliation. -/
theorem wms_reconcile_nonneg_witness :
    allStocksNonneg [("A", plainItem "A" 5)] = true ∧
    allStocksNonneg (updateInventoryWithSales [("A", 9)] [("A", plainItem "A" 5)]).2 = true :=
  ⟨by decide, wms_reconcile_nonneg [("A", 9)] [("A", plainItem "A" 5)] (by decide)⟩

/-- Counterexample for C2 as stated: a ledger loaded with opening stock
-1 keeps that negative `currentStock` through a reconciliation whose
sold-quantity map does not mention it, so after `updateInventoryWithSales`
an item with negative stock is still present. -/
theorem wms_reconcile_nonneg_cex :
    allStocksNonneg (updateInventoryWithSales [("X", 5)] negLedgerState.currentInventory).2 = false := by
  decide

/-! ### Mapping-table loader -/

/-- C3 (amended): the mapping loader skips a row exactly when its sku and
msku cells are strictly equal as raw, untrimmed values (or one of them is
missing or falsy); otherwise it stores trimmed sku → trimmed msku.  Since
the identity check runs before trimming, a stored key can equal its value
when the two cells differ only by surrounding whitespace.  (The unamended
claim — stored key and value never equal, identity-after-trimming rows
skipped — fails on such rows.) -/
theorem wms_mapping_skip_rule (tbl : List (String × String)) (row : Row)
    (s m : CellValue)
    (hs : findColumnValue row ["sku", "SKU", "Sku"] = some s)
    (hm : findColumnValue row ["msku", "MSKU", "Msku"] = some m) :
    (cellStrictEq s m = true → processMasterRow tbl row = tbl) ∧
    (jsTruthyCell s = true → jsTruthyCell m = true → cellStrictEq s m = false →
      processMasterRow tbl row
        = mapSet tbl (jsTrim (jsToString s)) (jsTrim (jsToString m))) := by
  constructor
  · intro heq
    simp [processMasterRow, hs, hm, heq]
  · intro hts htm hne
    simp [processMasterRow, hs, hm, hts, htm, hne]

/-- Witness for C3: a row with distinct sku and msku is stored trimmed. -/
theorem wms_mapping_skip_rule_witness :
    processMasterRow [] [("sku", CellValue.str "B1"), ("msku", CellValue.str "M9")]
      = [("B1", "M9")] :=
  (wms_mapping_skip_rule [] [("sku", CellValue.str "B1"), ("msku", CellValue.str "M9")]
    (CellValue.str "B1") (CellValue.str "M9") rfl rfl).2 rfl rfl rfl

/-- Counterexample for C3 as stated: the row `sku = " A1"`, `msku = "A1"`
is not skipped (the identity check precedes trimming), and the stored
entry maps the key `"A1"` to the equal value `"A1"`. -/
theorem wms_mapping_skip_rule_cex :
    mapGet (loadMasterData [[("sku", CellValue.str " A1"), ("msku", CellValue.str "A1")]]
        emptyMasterState).skuToMsku "A1" = some "A1" := by
  decide

/-! ### Meesho normalization -/

/-- C4 (amended): for marketplace `meesho` the normalizer returns the
*trimmed* string form of the raw SKU — independently of the mapping-table
state — and therefore returns the input itself exactly when the input is
already trimmed.  (The unamended claim — the raw SKU is returned
unchanged, equal to its input — fails on inputs with surrounding
whitespace.) -/
theorem wms_meesho_passthrough (tbl tbl2 : List (String × String)) (s : String) :
    mapSkuToMsku tbl (some (CellValue.str s)) "meesho" = jsTrim s ∧
    mapSkuToMsku tbl (some (CellValue.str s)) "meesho"
      = mapSkuToMsku tbl2 (some (CellValue.str s)) "meesho" ∧
    (jsTrim s = s → mapSkuToMsku tbl (some (CellValue.str s)) "meesho" = s) := by
  have h : mapSkuToMsku tbl (some (CellValue.str s)) "meesho" = jsTrim s := by
    by_cases hs : s = ""
    · subst hs; rfl
    · simp [mapSkuToMsku, jsTruthyCell, jsToString, hs]
  refine ⟨h, ?_, fun ht => by rw [h, ht]⟩
  rw [h]
  by_cases hs : s = ""
  · subst hs; rfl
  · simp [mapSkuToMsku, jsTruthyCell, jsToString, hs]

/-- Witness for C4: an already-trimmed meesho SKU comes back unchanged. -/
theorem wms_meesho_passthrough_witness :
    mapSkuToMsku [("K9", "Z9")] (some (CellValue.str "K9")) "meesho" = "K9" :=
  (wms_meesho_passthrough [("K9", "Z9")] [] "K9").2.2 (by decide)

/-- Counterexample for C4 as stated: the meesho branch trims, so the
input `" A "` is not returned equal to itself. -/
theorem wms_meesho_passthrough_cex :
    ¬ mapSkuToMsku [] (some (CellValue.str " A ")) "meesho" = " A " := by
  decide

/-! ### Status gate -/

/-- C5: the status gate returns false on an absent status; on a string
status it returns true exactly when the lower-cased status contains some
positive keyword and contains no negative keyword; in particular
"cancelled - delivered" is rejected although it contains a positive
keyword. -/
theorem wms_status_gate (mp : String) :
    shouldProcessOrder none mp = false ∧
    (∀ s : String,
      shouldProcessOrder (some (CellValue.str s)) mp = true ↔
        (∃ kw ∈ validStatuses, jsIncludes (jsToLower s) kw = true) ∧
        (∀ kw ∈ invalidStatuses, jsIncludes (jsToLower s) kw = false)) ∧
    shouldProcessOrder (some (CellValue.str "cancelled - delivered")) mp = false := by
  refine ⟨rfl, ?_, rfl⟩
  intro s
  by_cases hs : s = ""
  · subst hs
    have h0 : shouldProcessOrder (some (CellValue.str "")) mp = false := rfl
    rw [h0]
    constructor
    · intro h; cases h
    · intro h
      exact absurd h (by decide)
  · have hdef : shouldProcessOrder (some (CellValue.str s)) mp
        = (validStatuses.any (fun kw => jsIncludes (jsToLower s) kw) &&
           !(invalidStatuses.any (fun kw => jsIncludes (jsToLower s) kw))) := by
      simp [shouldProcessOrder, jsTruthyCell, jsToString, hs]
    rw [hdef, Bool.and_eq_true, Bool.not_eq_true', List.any_eq_true, List.any_eq_false]
    constructor
    · rintro ⟨h1, h2⟩
      exact ⟨h1, fun kw hkw => by simpa using h2 kw hkw⟩
    · rintro ⟨h1, h2⟩
      exact ⟨h1, fun kw hkw => by simpa using h2 kw hkw⟩

/-- Witness for C5: gate behaviour at concrete instances (absent status,
and a delivered status, via the characterization). -/
theorem wms_status_gate_witness :
    shouldProcessOrder none "amazon" = false ∧
    shouldProcessOrder (some (CellValue.str "Delivered")) "amazon" = true :=
  ⟨(wms_status_gate "amazon").1,
   (((wms_status_gate "amazon").2.1 "Delivered").mpr (by decide))⟩

/-! ### Combo expansion and batch aggregation -/

/-- C6: `expandComboSku` checks the combo table first by normalized MSKU,
then by raw SKU, and falls back to a single quantity-1 component; and the
scenario — mapping `A1→M1`, combo `C1→[M1 x1, M2 x1]`, ledger `M1=10`,
`M2=5`, one amazon order row `{sku: "C1", quantity: 2, status:
"Delivered"}` — yields exactly two order lines (M1 qty 2, M2 qty 2), the
per-MSKU map `{M1: 2, M2: 2}`, stocks 8 and 3 after reconciliation, and
no not-found update. -/
theorem wms_combo_expansion_scenario :
    comboScenarioResult.processedOrders =
      [{ marketplace := "amazon", originalSku := some (CellValue.str "C1"),
         mappedMsku := "M1", quantity := 2,
         status := some (CellValue.str "Delivered"), orderDate := none,
         customerLocation := none, productName := none, isComboComponent := true },
       { marketplace := "amazon", originalSku := some (CellValue.str "C1"),
         mappedMsku := "M2", quantity := 2,
         status := some (CellValue.str "Delivered"), orderDate := none,
         customerLocation := none, productName := none, isComboComponent := true }] ∧
    comboScenarioResult.msquQuantityMap = [("M1", 2), ("M2", 2)] ∧
    (mapGet comboScenarioUpdates.2 "M1").map InventoryItem.currentStock = some (some 8) ∧
    (mapGet comboScenarioUpdates.2 "M2").map InventoryItem.currentStock = some (some 3) ∧
    comboScenarioUpdates.1.all (fun u => !u.notInInventory) = true ∧
    expandComboSku [("R", "X")]
      [("X", [{ msku := "CA", quantity := 1 }]), ("R", [{ msku := "CB", quantity := 1 }])]
      (some (CellValue.str "R")) "amazon" = [{ msku := "CA", quantity := 1 }] ∧
    expandComboSku [] [] (some (CellValue.str "Z")) "amazon"
      = [{ msku := "Z", quantity := 1 }] := by
  decide

/-! ### Inventory ledger builder stock rule -/

theorem findColumnValue_ne_empty {row : Row} {ns : List String} {v : CellValue}
    (h : findColumnValue row ns = some v) : ¬ v = CellValue.str "" := by
  induction ns with
  | nil => cases h
  | cons n rest ih =>
    unfold findColumnValue at h
    split at h
    · split at h
      · exact ih h
      · next hw => cases h; exact hw
    · exact ih h

theorem jsGtZero_iff (x : Option Int) :
    jsGtZero x = true ↔ ∃ n, x = some n ∧ 0 < n := by
  cases x with
  | none => simp [jsGtZero]
  | some n => simp [jsGtZero]

theorem mkInventoryItem_fields {row : Row} {item : InventoryItem}
    (h : mkInventoryItem row = some item) :
    item.openingStock
        = jsParseInt (jsOr (findColumnValue row openingStockAliases) (CellValue.num 0)) ∧
    item.bufferStock
        = jsParseInt (jsOr (findColumnValue row bufferStockAliases) (CellValue.num 0)) ∧
    item.currentStock
        = (if item.openingStock = some 0 && decide (0 < (warehouseScan row).1)
            then some (warehouseScan row).1 else item.openingStock) ∧
    item.status = (if jsGtZero item.currentStock then "In Stock" else "Out of Stock") := by
  unfold mkInventoryItem at h
  rcases hm : findColumnValue row ["msku", "MSKU", "Msku"] with _ | mv <;> rw [hm] at h
  · cases h
  · simp only [] at h
    split at h
    · cases h
      refine ⟨rfl, rfl, rfl, rfl⟩
    · cases h

/-- C7 (amended): for every stored ledger item, openingStock and
bufferStock are 0 when their cells are missing (or numerically falsy),
and `NaN` — not 0 — when the cell is a non-empty unparseable string;
currentStock equals openingStock unless openingStock is 0 and the summed
per-location stock is positive, in which case it equals that total (a
nonzero openingStock always wins); status is "In Stock" iff currentStock
is a number greater than 0.  (The unamended claim's "0 as the value when
the cell is ... unparseable" fails: `parseInt` of a non-empty unparseable
cell is `NaN`.) -/
theorem wms_inventory_stock_rule (row : Row) (item : InventoryItem)
    (h : mkInventoryItem row = some item) :
    (findColumnValue row openingStockAliases = none → item.openingStock = some 0) ∧
    (findColumnValue row openingStockAliases = some (CellValue.num 0) →
        item.openingStock = some 0) ∧
    (∀ s, findColumnValue row openingStockAliases = some (CellValue.str s) →
        jsParseIntStr s = none → item.openingStock = none) ∧
    (findColumnValue row bufferStockAliases = none → item.bufferStock = some 0) ∧
    (item.currentStock
        = if item.openingStock = some 0 ∧ 0 < (warehouseScan row).1
            then some (warehouseScan row).1 else item.openingStock) ∧
    (item.status = "In Stock" ↔ ∃ n, item.currentStock = some n ∧ 0 < n) := by
  obtain ⟨hopen, hbuf, hcur, hstat⟩ := mkInventoryItem_fields h
  refine ⟨?_, ?_, ?_, ?_, ?_, ?_⟩
  · intro hnone; rw [hopen, hnone]; rfl
  · intro hzero; rw [hopen, hzero]; rfl
  · intro s hcell hparse
    have hne : ¬ (s = "") := by
      intro hs
      exact findColumnValue_ne_empty hcell (by rw [hs])
    rw [hopen, hcell]
    simp [jsOr, jsTruthyCell, jsParseInt, hne, hparse]
  · intro hnone; rw [hbuf, hnone]; rfl
  · rw [hcur]
    by_cases h0 : item.openingStock = some 0 <;>
      by_cases h1 : 0 < (warehouseScan row).1 <;>
        simp [h0, h1]
  · rw [hstat]
    by_cases hgt : jsGtZero item.currentStock = true
    · simp only [if_pos hgt]
      simpa using (jsGtZero_iff item.currentStock).mp hgt
    · simp only [if_neg hgt]
      constructor
      · intro hbad; exact absurd hbad (by decide)
      · intro hex
        exact absurd ((jsGtZero_iff item.currentStock).mpr hex) hgt

/-- Witness for C7: a row with only an msku cell yields opening stock 0,
current stock 0 and status "Out of Stock". -/
theorem wms_inventory_stock_rule_witness :
    mkInventoryItem [("msku", CellValue.str "M")]
      = some (plainItem "M" 0) ∧
    (plainItem "M" 0).openingStock = some 0 :=
  ⟨by decide,
   (wms_inventory_stock_rule [("msku", CellValue.str "M")] (plainItem "M" 0)
      (by decide)).1 rfl⟩

/-- Counterexample for C7 as stated: the unparseable opening-stock cell
"abc" yields `NaN` (modelled `none`), not 0. -/
theorem wms_inventory_stock_rule_cex :
    (mkInventoryItem [("msku", CellValue.str "M"), ("Opening Stock", CellValue.str "abc")]).map
        InventoryItem.openingStock = some none ∧
    ¬ (mkInventoryItem [("msku", CellValue.str "M"), ("Opening Stock", CellValue.str "abc")]).map
        InventoryItem.openingStock = some (some 0) := by
  decide

/-! ### Order quantity default -/

/-- C8 (amended): for every order row and marketplace tag, the extracted
quantity is `parseInt(cell || 1)`: it is 1 when the quantity cell is
absent (or numerically falsy), but a present non-empty cell that cannot be
parsed as an integer yields `NaN` (modelled `none`), not 1 — such rows are
later dropped by the batch processor's `quantity > 0` guard.  (The
unamended claim — quantity equals 1 whenever the cell is absent or
unparseable — fails on unparseable non-empty cells.) -/
theorem wms_quantity_default (order : Row) (mp : String) :
    ((extractOrderInfo order mp).quantity
       = jsParseInt (jsOr (findColumnValue order (quantityAliases mp)) (CellValue.num 1))) ∧
    (findColumnValue order (quantityAliases mp) = none →
       (extractOrderInfo order mp).quantity = some 1) ∧
    (findColumnValue order (quantityAliases mp) = some (CellValue.num 0) →
       (extractOrderInfo order mp).quantity = some 1) ∧
    (∀ s, findColumnValue order (quantityAliases mp) = some (CellValue.str s) →
       jsParseIntStr s = none → (extractOrderInfo order mp).quantity = none) := by
  have hq : (extractOrderInfo order mp).quantity
      = jsParseInt (jsOr (findColumnValue order (quantityAliases mp)) (CellValue.num 1)) := by
    unfold extractOrderInfo quantityAliases
    split_ifs <;> rfl
  refine ⟨hq, ?_, ?_, ?_⟩
  · intro hnone; rw [hq, hnone]; rfl
  · intro hzero; rw [hq, hzero]; rfl
  · intro s hcell hparse
    have hne : ¬ (s = "") := fun hs => findColumnValue_ne_empty hcell (by rw [hs])
    rw [hq, hcell]
    simp [jsOr, jsTruthyCell, jsParseInt, hne, hparse]

/-- Witness for C8: a row without a quantity cell defaults to 1. -/
theorem wms_quantity_default_witness :
    (extractOrderInfo [] "amazon").quantity = some 1 :=
  (wms_quantity_default [] "amazon").2.1 rfl

/-- Counterexample for C8 as stated: the unparseable quantity cell "abc"
yields `NaN` (modelled `none`), not 1. -/
theorem wms_quantity_default_cex :
    (extractOrderInfo [("SKU", CellValue.str "A"), ("Quantity", CellValue.str "abc")]
        "amazon").quantity = none ∧
    ¬ (extractOrderInfo [("SKU", CellValue.str "A"), ("Quantity", CellValue.str "abc")]
        "amazon").quantity = some 1 := by
  decide

/-! ### Not-found reconciliation entries and output order -/

theorem applySale_updates (acc : List InventoryUpdate × List (String × InventoryItem))
    (e : String × Int) : ∃ u, (applySale acc e).1 = acc.1 ++ [u] := by
  cases h : mapGet acc.2 e.1 with
  | none =>
    exact ⟨{ msku := e.1, originalStock := some 0, soldQuantity := e.2,
             newStock := some 0, stockReduced := some 0, panel := "Not Found",
             status := "Unknown", isOutOfStock := true, notInInventory := true },
           by simp only [applySale, h]⟩
  | some item =>
    exact ⟨{ msku := e.1, originalStock := item.originalStock, soldQuantity := e.2,
             newStock := jsMax0 (jsSub item.currentStock (some e.2)),
             stockReduced := jsSub item.currentStock
               (jsMax0 (jsSub item.currentStock (some e.2))),
             panel := item.panel, status := item.status,
             isOutOfStock := decide (jsMax0 (jsSub item.currentStock (some e.2)) = some 0),
             notInInventory := false },
           by simp only [applySale, h]⟩

theorem mem_foldl_applySale_of_mem (m : List (String × Int))
    (acc : List InventoryUpdate × List (String × InventoryItem))
    {u : InventoryUpdate} (h : u ∈ acc.1) : u ∈ (m.foldl applySale acc).1 := by
  induction m generalizing acc with
  | nil => exact h
  | cons e rest ih =>
    rw [List.foldl_cons]
    apply ih
    obtain ⟨w, hw⟩ := applySale_updates acc e
    rw [hw]
    exact List.mem_append_left _ h

theorem applySale_lookup_none {acc : List InventoryUpdate × List (String × InventoryItem)}
    {k : String} (e : String × Int) (h : mapGet acc.2 k = none) :
    mapGet (applySale acc e).2 k = none := by
  cases he : mapGet acc.2 e.1 with
  | none => simpa only [applySale, he] using h
  | some item =>
    simp only [applySale, he]
    have hne : e.1 ≠ k := by
      intro hh
      rw [hh, h] at he
      cases he
    rw [mapGet_mapSet_ne _ _ _ _ hne]
    exact h

theorem foldl_applySale_lookup_none (m : List (String × Int))
    (acc : List InventoryUpdate × List (String × InventoryItem))
    {k : String} (h : mapGet acc.2 k = none) :
    mapGet (m.foldl applySale acc).2 k = none := by
  induction m generalizing acc with
  | nil => exact h
  | cons e rest ih =>
    rw [List.foldl_cons]
    exact ih _ (applySale_lookup_none e h)

theorem notFound_mem_foldl (m : List (String × Int))
    (acc : List InventoryUpdate × List (String × InventoryItem))
    {k : String} {q : Int} (hk : mapGet acc.2 k = none) (hm : (k, q) ∈ m) :
    notFoundUpdate k q ∈ (m.foldl applySale acc).1 := by
  induction m generalizing acc with
  | nil => cases hm
  | cons e rest ih =>
    rw [List.foldl_cons]
    rcases List.mem_cons.mp hm with he | hm2
    · cases he.symm
      apply mem_foldl_applySale_of_mem
      simp only [applySale, hk]
      exact List.mem_append_right _ (List.mem_singleton.mpr rfl)
    · exact ih _ (applySale_lookup_none e hk) hm2

theorem filter_orderedInsert_sold (u : InventoryUpdate) (l : List InventoryUpdate)
    (q2 : Int) :
    (List.orderedInsert updGE u l).filter (fun x => x.soldQuantity == q2)
      = if u.soldQuantity == q2
          then u :: l.filter (fun x => x.soldQuantity == q2)
          else l.filter (fun x => x.soldQuantity == q2) := by
  induction l with
  | nil =>
    by_cases h : (u.soldQuantity == q2) = true <;>
      simp [List.orderedInsert, List.filter, h]
  | cons b bs ih =>
    by_cases hub : updGE u b
    · simp [List.orderedInsert, if_pos hub, List.filter_cons]
    · have hlt : u.soldQuantity < b.soldQuantity := lt_of_not_le hub
      have hbsu : (b.soldQuantity == u.soldQuantity) = false := by
        simp only [beq_eq_false_iff_ne, ne_eq]
        intro hh
        rw [hh] at hlt
        exact lt_irrefl _ hlt
      simp only [List.orderedInsert, if_neg hub, List.filter_cons, ih]
      by_cases huq : (u.soldQuantity == q2) = true
      · have hbq : (b.soldQuantity == q2) = false := by
          rw [beq_iff_eq] at huq
          rw [← huq]
          exact hbsu
        simp [huq, hbq]
      · simp only [Bool.not_eq_true] at huq
        simp [huq]

theorem filter_sortBySoldDesc (l : List InventoryUpdate) (q2 : Int) :
    (sortBySoldDesc l).filter (fun x => x.soldQuantity == q2)
      = l.filter (fun x => x.soldQuantity == q2) := by
  induction l with
  | nil => rfl
  | cons u us ih =>
    show (List.orderedInsert updGE u (List.insertionSort updGE us)).filter _ = _
    rw [filter_orderedInsert_sold, List.filter_cons]
    rw [show List.insertionSort updGE us = sortBySoldDesc us from rfl, ih]

/-- C9 (amended): for every MSKU in the sold-quantity map with no ledger
entry, `updateInventoryWithSales` leaves the ledger unchanged at that
MSKU and emits an `InventoryUpdate` whose stock fields (originalStock,
newStock, stockReduced) are zero, whose `soldQuantity` equals the
requested quantity (not zero), and whose not-found flag is true — with no
error; the returned list is sorted descending by soldQuantity, and ties
keep the order in which the updates were produced (map insertion order),
since the sorted list filters to the same sublist as the unsorted fold at
every sold quantity.  (The unamended claim — "numeric fields are zero" —
fails for `soldQuantity`.) -/
theorem wms_not_found_updates (m : List (String × Int))
    (inv : List (String × InventoryItem)) (k : String) (q : Int)
    (hk : mapGet inv k = none) (hm : (k, q) ∈ m) :
    mapGet (updateInventoryWithSales m inv).2 k = none ∧
    notFoundUpdate k q ∈ (updateInventoryWithSales m inv).1 ∧
    List.Pairwise updGE (updateInventoryWithSales m inv).1 ∧
    (∀ q2 : Int,
      (updateInventoryWithSales m inv).1.filter (fun x => x.soldQuantity == q2)
        = (updateInventoryRaw m inv).1.filter (fun x => x.soldQuantity == q2)) := by
  refine ⟨?_, ?_, ?_, ?_⟩
  · exact foldl_applySale_lookup_none m ([], inv) hk
  · show notFoundUpdate k q ∈ sortBySoldDesc (updateInventoryRaw m inv).1
    rw [show sortBySoldDesc (updateInventoryRaw m inv).1
          = List.insertionSort updGE (updateInventoryRaw m inv).1 from rfl,
      List.mem_insertionSort]
    exact notFound_mem_foldl m ([], inv) hk hm
  · exact List.sorted_insertionSort updGE (updateInventoryRaw m inv).1
  · intro q2
    exact filter_sortBySoldDesc (updateInventoryRaw m inv).1 q2

/-- Witness for C9: the MSKU "X" sold 5 against an empty ledger. -/
theorem wms_not_found_updates_witness :
    mapGet (updateInventoryWithSales [("X", 5)] []).2 "X" = none ∧
    notFoundUpdate "X" 5 ∈ (updateInventoryWithSales [("X", 5)] []).1 :=
  ⟨(wms_not_found_updates [("X", 5)] [] "X" 5 rfl (List.mem_singleton.mpr rfl)).1,
   (wms_not_found_updates [("X", 5)] [] "X" 5 rfl (List.mem_singleton.mpr rfl)).2.1⟩

/-- Counterexample for C9 as stated: the not-found update for "X" sold 5
carries `soldQuantity = 5`, so not all of its numeric fields are zero. -/
theorem wms_not_found_updates_cex :
    (updateInventoryWithSales [("X", 5)] []).1 = [notFoundUpdate "X" 5] ∧
    ¬ (notFoundUpdate "X" 5).soldQuantity = 0 := by
  decide

/-! ### Per-request reset -/

theorem applySale_lookup_other {acc : List InventoryUpdate × List (String × InventoryItem)}
    {k : String} (e : String × Int) (hne : e.1 ≠ k) :
    mapGet (applySale acc e).2 k = mapGet acc.2 k := by
  cases he : mapGet acc.2 e.1 with
  | none => simp only [applySale, he]
  | some item =>
    simp only [applySale, he]
    exact mapGet_mapSet_ne _ _ _ _ hne

theorem foldl_applySale_lookup_congr (m : List (String × Int))
    (accA accB : List InventoryUpdate × List (String × InventoryItem)) (k : String)
    (h : mapGet accA.2 k = mapGet accB.2 k) :
    mapGet (m.foldl applySale accA).2 k = mapGet (m.foldl applySale accB).2 k := by
  induction m generalizing accA accB with
  | nil => exact h
  | cons e rest ih =>
    rw [List.foldl_cons, List.foldl_cons]
    apply ih
    by_cases hek : e.1 = k
    · subst hek
      cases hA : mapGet accA.2 e.1 with
      | none =>
        have hB : mapGet accB.2 e.1 = none := by rw [← h]; exact hA
        simp only [applySale, hA, hB]
      | some item =>
        have hB : mapGet accB.2 e.1 = some item := by rw [← h]; exact hA
        simp only [applySale, hA, hB]
        rw [mapGet_mapSet_self, mapGet_mapSet_self]
    · rw [applySale_lookup_other e hek, applySale_lookup_other e hek]
      exact h

theorem afterLoad_lookup (stA stB : MasterState) (files : List (List Row)) (k : String)
    (hsku : stA.skuToMsku = stB.skuToMsku)
    (hcombo : stA.comboSkus = stB.comboSkus)
    (horig : stA.originalInventory = stB.originalInventory)
    (hnd : (mapKeys stA.originalInventory).Nodup)
    (hk : k ∈ mapKeys stA.originalInventory) :
    ∀ rA rB,
      processOrdersRequest.processOrdersAfterLoad stA files = Except.ok rA →
      processOrdersRequest.processOrdersAfterLoad stB files = Except.ok rB →
      mapGet rA.2.currentInventory k = mapGet rB.2.currentInventory k := by
  intro rA rB hA hB
  have hrA := Except.ok.inj hA
  have hrB := Except.ok.inj hB
  subst hrA
  subst hrB
  show mapGet (updateInventoryWithSales
      ((files.map (fun rows =>
          processOrderData stA.skuToMsku stA.comboSkus rows (detectMarketplace rows))).foldl
        (fun acc r => combineMaps acc r.msquQuantityMap) [])
      (resetInventory stA).currentInventory).2 k
    = mapGet (updateInventoryWithSales
      ((files.map (fun rows =>
          processOrderData stB.skuToMsku stB.comboSkus rows (detectMarketplace rows))).foldl
        (fun acc r => combineMaps acc r.msquQuantityMap) [])
      (resetInventory stB).currentInventory).2 k
  rw [hsku, hcombo]
  have hres : mapGet (resetInventory stA).currentInventory k
      = mapGet (resetInventory stB).currentInventory k := by
    rw [resetInventory_currentInventory, resetInventory_currentInventory,
      copyInto_lookup_of_mem _ hnd hk, horig,
      copyInto_lookup_of_mem _ (horig ▸ hnd) (horig ▸ hk)]
  exact foldl_applySale_lookup_congr _ ([], (resetInventory stA).currentInventory)
    ([], (resetInventory stB).currentInventory) k hres

/-- C10: the `/process-orders` handler resets the working ledger from the
snapshot before processing any order file, so the post-request stock at
every snapshot MSKU depends only on the snapshot, the mapping/combo
tables, and that request's files: two pre-states differing only in their
working ledgers produce the same post-request ledger lookup at every
snapshot key — decrements from earlier requests never accumulate. -/
theorem wms_request_reset_independence (stA stB : MasterState)
    (masterRows : Option (List Row)) (files : List (List Row)) (k : String)
    (hsku : stA.skuToMsku = stB.skuToMsku)
    (hcombo : stA.comboSkus = stB.comboSkus)
    (horig : stA.originalInventory = stB.originalInventory)
    (hnd : (mapKeys stA.originalInventory).Nodup)
    (hk : k ∈ mapKeys stA.originalInventory) :
    ∀ rA rB, processOrdersRequest stA masterRows files = Except.ok rA →
      processOrdersRequest stB masterRows files = Except.ok rB →
      mapGet rA.2.currentInventory k = mapGet rB.2.currentInventory k := by
  intro rA rB hA hB
  cases masterRows with
  | some rows =>
    have hA2 : processOrdersRequest.processOrdersAfterLoad (loadMasterData rows stA) files
        = Except.ok rA := hA
    have hB2 : processOrdersRequest.processOrdersAfterLoad (loadMasterData rows stB) files
        = Except.ok rB := hB
    have hsku2 : (loadMasterData rows stA).skuToMsku = (loadMasterData rows stB).skuToMsku := by
      show rows.foldl processMasterRow stA.skuToMsku = rows.foldl processMasterRow stB.skuToMsku
      rw [hsku]
    exact afterLoad_lookup (loadMasterData rows stA) (loadMasterData rows stB) files k
      hsku2 hcombo horig hnd hk rA rB hA2 hB2
  | none =>
    by_cases hempty : stA.skuToMsku = []
    · exfalso
      have herr : processOrdersRequest stA none files
          = Except.error "No master data available" := by
        simp [processOrdersRequest, hempty]
      rw [herr] at hA
      cases hA
    · have hemptyB : ¬ stB.skuToMsku = [] := by rw [← hsku]; exact hempty
      have hA2 : processOrdersRequest.processOrdersAfterLoad stA files = Except.ok rA := by
        have hstep : processOrdersRequest stA none files
            = processOrdersRequest.processOrdersAfterLoad stA files := by
          simp [processOrdersRequest, hempty]
        rwa [hstep] at hA
      have hB2 : processOrdersRequest.processOrdersAfterLoad stB files = Except.ok rB := by
        have hstep : processOrdersRequest stB none files
            = processOrdersRequest.processOrdersAfterLoad stB files := by
          simp [processOrdersRequest, hemptyB]
        rwa [hstep] at hB
      exact afterLoad_lookup stA stB files k hsku hcombo horig hnd hk rA rB hA2 hB2

/-- Witness for C10: two pre-states whose working ledgers hold 5 and 9
for "M" over the same snapshot value 7 both end an empty request with the
ledger restored to 7. -/
theorem wms_request_reset_independence_witness :
    processOrdersRequest reqStateA none [] = Except.ok reqResult ∧
    processOrdersRequest reqStateB none [] = Except.ok reqResult ∧
    mapGet reqResult.2.currentInventory "M" = mapGet reqResult.2.currentInventory "M" :=
  ⟨rfl, rfl,
   wms_request_reset_independence reqStateA reqStateB none [] "M" rfl rfl rfl
     (by decide) (by decide) reqResult reqResult rfl rfl⟩
